import Mathlib

/-!
# Verification of the openleaf editing-session core

Shallow embedding of the openleaf client's session/editor state layer:

* the editor store (`src/client/src/App.tsx`, `useEditorStore`): per-file
  content buffers with a dirty flag, `setFileContent` / `markFileSaved`;
* the save flow (`MainLayout.handleSave`): content captured at initiation,
  `markFileSaved` on confirmation;
* the project store (`src/client/src/stores/projectStore.ts`):
  `openFiles` / `activeFile` with `setFiles`, `openFile`, `closeFile`,
  `setActiveFile`, and the persisted-session fallback `getStoredState`;
* the keyboard-shortcut module (`useKeyboardShortcuts`): registration list
  and first-match dispatch;
* the comment-highlight builder in the `Editor` component.

JavaScript objects keyed by strings are embedded as association lists,
`null` / `undefined` as `Option`, thrown exceptions as `Except`, and the
`{...obj, [k]: v}` spread update as in-place replacement or append.
-/

namespace Openleaf

/-! ## Editor store: file buffers (useEditorStore in App.tsx) -/

/-- One file buffer: live content, last-synchronized content, dirty flag
(`FileContent` in the editor store). -/
structure FileContent where
  content : String
  originalContent : String
  isDirty : Bool
deriving DecidableEq, Repr

/-- `Record<string, FileContent>` embedded as an association list. -/
abbrev FileContents := List (String × FileContent)

/-- Key lookup in the record (`state.fileContents[filePath]`). -/
def lookupFC : FileContents → String → Option FileContent
  | [], _ => none
  | (q, v) :: rest, p => if q = p then some v else lookupFC rest p

/-- The spread update `{...state.fileContents, [filePath]: v}`: replace the
existing key in place, or append a new key. -/
def setFC : FileContents → String → FileContent → FileContents
  | [], p, v => [(p, v)]
  | (q, w) :: rest, p, v =>
      if q = p then (q, v) :: rest else (q, w) :: setFC rest p v

/-- A compile diagnostic (`CompileError` / `CompileWarning`). -/
structure CompileError where
  file : String
  line : Option Int
  message : String
deriving DecidableEq, Repr

/-- The editor store's state (`EditorState` in App.tsx). -/
structure EditorState where
  isCompiling : Bool
  isSaving : Bool
  pdfUrl : Option String
  compileErrors : List CompileError
  compileWarnings : List CompileError
  fileContents : FileContents
deriving DecidableEq, Repr

/-- The store's initial state. -/
def initialEditorState : EditorState :=
  { isCompiling := false, isSaving := false, pdfUrl := none,
    compileErrors := [], compileWarnings := [], fileContents := [] }

/-- `setFileContent(filePath, content, isOriginal)`: with `isOriginal` the
buffer is (re)established clean; otherwise `originalContent` is kept (or
defaults to `content` for a fresh path) and `isDirty` is recomputed as
`content !== originalContent`. -/
def setFileContent (filePath content : String) (isOriginal : Bool)
    (s : EditorState) : EditorState :=
  let existing := lookupFC s.fileContents filePath
  if isOriginal then
    let v : FileContent :=
      { content := content, originalContent := content, isDirty := false }
    { s with fileContents := setFC s.fileContents filePath v }
  else
    let orig := (existing.map FileContent.originalContent).getD content
    let v : FileContent :=
      { content := content, originalContent := orig, isDirty := content != orig }
    { s with fileContents := setFC s.fileContents filePath v }

/-- `markFileSaved(filePath)`: for a loaded buffer, set
`originalContent := content` and clear the dirty flag; for an absent path,
return the state unchanged. -/
def markFileSaved (filePath : String) (s : EditorState) : EditorState :=
  match lookupFC s.fileContents filePath with
  | none => s
  | some existing =>
      let v : FileContent :=
        { existing with originalContent := existing.content, isDirty := false }
      { s with fileContents := setFC s.fileContents filePath v }

/-- `getFileContent(filePath)`: current content, or `undefined`. -/
def getFileContent (filePath : String) (s : EditorState) : Option String :=
  (lookupFC s.fileContents filePath).map FileContent.content

/-- `isFileDirty(filePath)`: the buffer's dirty flag, `false` when absent. -/
def isFileDirty (filePath : String) (s : EditorState) : Bool :=
  ((lookupFC s.fileContents filePath).map FileContent.isDirty).getD false

/-! ## The save flow (MainLayout.handleSave) -/

/-- A file entry of the project listing (`File` in projectStore.ts). -/
structure FileEntry where
  id : String
  name : String
  path : String
  isFolder : Bool
deriving DecidableEq, Repr

/-- A project (`Project` in projectStore.ts). -/
structure Project where
  id : String
  name : String
  ownerId : String
  files : List FileEntry
deriving DecidableEq, Repr

/-- An in-flight save: the path and the content captured when
`handleSave` read `getFileContent(activeFile)` at initiation. -/
structure SaveRequest where
  filePath : String
  content : String
deriving DecidableEq, Repr

/-- Phase 1 of `handleSave`: the guards before the network call.  Aborts
(`return`) unless there is an active file, a current project, loaded
content, and a matching project file; otherwise captures the content that
is sent to `filesApi.updateContent`. -/
def handleSaveInitiate (activeFile : Option String)
    (currentProject : Option Project) (s : EditorState) : Option SaveRequest :=
  match activeFile, currentProject with
  | some path, some proj =>
      match getFileContent path s with
      | none => none
      | some content =>
          if (proj.files.map FileEntry.path).contains path then
            some { filePath := path, content := content }
          else none
  | _, _ => none

/-- Phase 2 of `handleSave`, run when the network call succeeds: it calls
`markFileSaved(activeFile)` unconditionally — the captured snapshot
`req.content` is not consulted. -/
def handleSaveConfirm (req : SaveRequest) (s : EditorState) : EditorState :=
  markFileSaved req.filePath s

/-! ## Buffer operations and the dirty-flag invariant -/

/-- One editor-store buffer operation: a `setFileContent` call (load when
`isOriginal`, edit otherwise) or a `markFileSaved` call. -/
inductive BufferOp where
  | setContent (filePath content : String) (isOriginal : Bool)
  | save (filePath : String)
deriving DecidableEq, Repr

/-- Apply one buffer operation to the store. -/
def applyOp (s : EditorState) (op : BufferOp) : EditorState :=
  match op with
  | .setContent p c o => setFileContent p c o s
  | .save p => markFileSaved p s

/-- Every buffer's dirty flag agrees with the comparison of its content
against its last-synchronized content. -/
def dirtyInvariant (s : EditorState) : Prop :=
  ∀ e ∈ s.fileContents, e.2.isDirty = true ↔ e.2.content ≠ e.2.originalContent

/-! ### Helper lemmas on the record update -/

lemma mem_setFC {p : String} {v : FileContent} {e : String × FileContent} :
    ∀ {m : FileContents}, e ∈ setFC m p v → e ∈ m ∨ e = (p, v) := by
  intro m
  induction m with
  | nil =>
      intro h
      exact Or.inr (List.mem_singleton.mp h)
  | cons hd tl ih =>
      obtain ⟨q, w⟩ := hd
      intro h
      simp only [setFC] at h
      split at h
      case isTrue hqp =>
        rcases List.mem_cons.mp h with h1 | h1
        · exact Or.inr (by rw [h1, hqp])
        · exact Or.inl (List.mem_cons_of_mem _ h1)
      case isFalse hqp =>
        rcases List.mem_cons.mp h with h1 | h1
        · exact Or.inl (by rw [h1]; exact List.mem_cons_self _ _)
        · rcases ih h1 with h2 | h2
          · exact Or.inl (List.mem_cons_of_mem _ h2)
          · exact Or.inr h2

lemma dirtyInvariant_applyOp {s : EditorState} (op : BufferOp)
    (hs : dirtyInvariant s) : dirtyInvariant (applyOp s op) := by
  cases op with
  | setContent p c o =>
      cases o with
      | false =>
          intro e he
          simp only [applyOp, setFileContent, if_neg (Bool.false_ne_true)] at he
          rcases mem_setFC he with h | h
          · exact hs e h
          · subst h
            simp [bne_iff_ne]
      | true =>
          intro e he
          simp only [applyOp, setFileContent, if_pos rfl] at he
          rcases mem_setFC he with h | h
          · exact hs e h
          · subst h
            simp
  | save p =>
      intro e he
      simp only [applyOp, markFileSaved] at he
      cases hl : lookupFC s.fileContents p with
      | none => rw [hl] at he; exact hs e he
      | some existing =>
          rw [hl] at he
          rcases mem_setFC he with h | h
          · exact hs e h
          · subst h
            simp

lemma dirtyInvariant_foldl (ops : List BufferOp) (s : EditorState)
    (hs : dirtyInvariant s) : dirtyInvariant (ops.foldl applyOp s) := by
  induction ops generalizing s with
  | nil => exact hs
  | cons op rest ih => exact ih _ (dirtyInvariant_applyOp op hs)

/-! ## Claim theorems for the editor store -/

/-- C2: after every sequence of buffer operations (loads, edits, saves)
starting from the empty store, each buffer's `isDirty` flag is true iff its
content differs from its `originalContent`. -/
theorem buffer_dirty_iff (ops : List BufferOp) :
    dirtyInvariant (ops.foldl applyOp initialEditorState) :=
  dirtyInvariant_foldl ops initialEditorState (by intro e he; cases he)

/-- Witness for C2: a concrete load-edit-save sequence satisfies the
invariant. -/
theorem buffer_dirty_iff_witness :
    dirtyInvariant
      (([BufferOp.setContent "main.tex" "A" true,
         BufferOp.setContent "main.tex" "B" false,
         BufferOp.save "main.tex"]).foldl applyOp initialEditorState) :=
  buffer_dirty_iff
    [BufferOp.setContent "main.tex" "A" true,
     BufferOp.setContent "main.tex" "B" false,
     BufferOp.save "main.tex"]

/-- C10: `markFileSaved` on a path with no loaded buffer leaves the whole
editor-store state unchanged. -/
theorem markFileSaved_absent_frame (s : EditorState) (p : String)
    (h : lookupFC s.fileContents p = none) : markFileSaved p s = s := by
  simp [markFileSaved, h]

/-- Witness for C10: on the empty store, `markFileSaved` is the identity. -/
theorem markFileSaved_absent_frame_witness :
    markFileSaved "main.tex" initialEditorState = initialEditorState :=
  markFileSaved_absent_frame initialEditorState "main.tex" rfl

/-! ### The stale-save race (C1) -/

/-- Buffer for `main.tex` loaded with content `"A"`. -/
def c1State0 : EditorState := setFileContent "main.tex" "A" true initialEditorState

/-- A project containing `main.tex`. -/
def c1Project : Project :=
  { id := "p1", name := "proj", ownerId := "o1",
    files := [{ id := "f1", name := "main.tex", path := "main.tex", isFolder := false }] }

/-- The buffer after the in-flight edit to `"B"`. -/
def c1State1 : EditorState := setFileContent "main.tex" "B" false c1State0

/-- C1 (code bug): a save initiated with snapshot `"A"`, superseded by an
edit to `"B"` before the confirmation, still marks the buffer saved: after
`handleSaveConfirm` the buffer holds `"B"` with `isDirty = false` and
`originalContent = "B"`, although `"B"` differs from the snapshot and was
never sent to the server.  The confirmation handler performs no snapshot
comparison, contradicting the specified stale-save rule. -/
theorem stale_save_marked_clean :
    handleSaveInitiate (some "main.tex") (some c1Project) c1State0 =
      some { filePath := "main.tex", content := "A" }
    ∧ isFileDirty "main.tex" c1State1 = true
    ∧ getFileContent "main.tex" c1State1 = some "B"
    ∧ isFileDirty "main.tex"
        (handleSaveConfirm { filePath := "main.tex", content := "A" } c1State1) = false
    ∧ getFileContent "main.tex"
        (handleSaveConfirm { filePath := "main.tex", content := "A" } c1State1) = some "B"
    ∧ ("B" : String) ≠ "A" := by
  decide

/-! ## Project store: session state (projectStore.ts) -/

/-- The project store's state: current project, open-file tab order, and
the active file (`ProjectState` in projectStore.ts). -/
structure ProjectState where
  currentProject : Option Project
  openFiles : List String
  activeFile : Option String
deriving DecidableEq, Repr

/-- JavaScript `x || null` on a `string | undefined` value: the empty
string is falsy and collapses to `null`. -/
def jsOrNull (x : Option String) : Option String :=
  match x with
  | some v => if v = "" then none else some v
  | none => none

/-- `setFiles(files)`: with no current project only `currentProject` is
written; otherwise open files and the active file are pruned to paths
present in the new listing (JS truthiness makes an empty-string active
path collapse to `null`), and the project's file list is replaced. -/
def setFiles (files : List FileEntry) (s : ProjectState) : ProjectState :=
  match s.currentProject with
  | none => { s with currentProject := none }
  | some proj =>
      let existingPaths := files.map FileEntry.path
      let validOpenFiles := s.openFiles.filter (fun path => existingPaths.contains path)
      let validActiveFile :=
        match s.activeFile with
        | some a => if a != "" && existingPaths.contains a then some a else none
        | none => none
      { currentProject := some { proj with files := files },
        openFiles := validOpenFiles,
        activeFile := validActiveFile }

/-- `openFile(path)`: append `path` if not already open, make it active. -/
def openFile (path : String) (s : ProjectState) : ProjectState :=
  let newOpenFiles :=
    if s.openFiles.contains path then s.openFiles else s.openFiles ++ [path]
  { s with openFiles := newOpenFiles, activeFile := some path }

/-- `closeFile(path)`: drop `path` from the open files; if it was active,
the new active file is `newOpenFiles[newOpenFiles.length - 1] || null`,
i.e. the last surviving entry. -/
def closeFile (path : String) (s : ProjectState) : ProjectState :=
  let newOpenFiles := s.openFiles.filter (fun f => f != path)
  let newActiveFile :=
    if s.activeFile = some path then jsOrNull newOpenFiles.getLast?
    else s.activeFile
  { s with openFiles := newOpenFiles, activeFile := newActiveFile }

/-- `setActiveFile(path)`: writes `activeFile` unconditionally, with no
membership check against `openFiles`. -/
def setActiveFile (path : Option String) (s : ProjectState) : ProjectState :=
  { s with activeFile := path }

/-- The session invariant from the spec: the active file, when set, is one
of the open files. -/
def activeMem (s : ProjectState) : Prop :=
  ∀ a, s.activeFile = some a → a ∈ s.openFiles

/-- An empty project used by the concrete session-store scenarios. -/
def demoProject : Project :=
  { id := "p1", name := "proj", ownerId := "o1", files := [] }

lemma mem_of_getLast?_eq {l : List String} {x : String}
    (h : l.getLast? = some x) : x ∈ l := by
  have hx : x ∈ l.getLast? := by rw [h]; rfl
  obtain ⟨hne, hx2⟩ := List.mem_getLast?_eq_getLast hx
  rw [hx2]
  exact List.getLast_mem hne

/-! ### C3: reconcile (setFiles) dropping the active file -/

/-- Open tabs `a.tex`, `b.tex` with `b.tex` active. -/
def c3State : ProjectState :=
  { currentProject := some demoProject,
    openFiles := ["a.tex", "b.tex"], activeFile := some "b.tex" }

/-- A refreshed listing containing only `a.tex`. -/
def c3Files : List FileEntry :=
  [{ id := "f1", name := "a.tex", path := "a.tex", isFolder := false }]

/-- Counterexample to C3: reconciling `[a.tex, b.tex]` (active `b.tex`)
against a listing with only `a.tex` leaves `activeFile = none`, not the
previous surviving entry `a.tex` that the claim requires. -/
theorem setFiles_drop_active_counterexample :
    (setFiles c3Files c3State).openFiles = ["a.tex"]
    ∧ (setFiles c3Files c3State).activeFile = none
    ∧ (setFiles c3Files c3State).activeFile ≠ some "a.tex" := by
  decide

/-- C3 (amended): a `setFiles` whose path set excludes the active file
keeps the surviving open files in order (the result is the membership
filter of the previous list, a sublist of it) and always resets
`activeFile` to `none`, regardless of which files survive. -/
theorem setFiles_prune_spec (s : ProjectState) (proj : Project) (a : String)
    (files : List FileEntry) (hp : s.currentProject = some proj)
    (ha : s.activeFile = some a)
    (hex : (files.map FileEntry.path).contains a = false) :
    (setFiles files s).openFiles
        = s.openFiles.filter (fun p => (files.map FileEntry.path).contains p)
    ∧ ((setFiles files s).openFiles).Sublist s.openFiles
    ∧ (setFiles files s).activeFile = none := by
  refine ⟨?_, ?_, ?_⟩
  · simp [setFiles, hp]
  · simp only [setFiles, hp]
    exact List.filter_sublist _
  · simp only [setFiles, hp, ha]
    rw [hex]
    simp

/-- Witness for C3 (amended) at the concrete scenario of the
counterexample. -/
theorem setFiles_prune_spec_witness :
    (setFiles c3Files c3State).openFiles
        = c3State.openFiles.filter (fun p => (c3Files.map FileEntry.path).contains p)
    ∧ ((setFiles c3Files c3State).openFiles).Sublist c3State.openFiles
    ∧ (setFiles c3Files c3State).activeFile = none :=
  setFiles_prune_spec c3State demoProject "b.tex" c3Files rfl rfl (by decide)

/-! ### C4: closeFile on the active file -/

/-- Open tabs `a.tex`, `b.tex`, `c.tex` with `b.tex` active. -/
def c4State : ProjectState :=
  { currentProject := some demoProject,
    openFiles := ["a.tex", "b.tex", "c.tex"], activeFile := some "b.tex" }

/-- Counterexample to C4: closing the active middle tab `b.tex` makes the
*last* surviving entry `c.tex` active, not the entry `a.tex` that
immediately preceded `b.tex` as the claim requires. -/
theorem closeFile_last_counterexample :
    (closeFile "b.tex" c4State).openFiles = ["a.tex", "c.tex"]
    ∧ (closeFile "b.tex" c4State).activeFile = some "c.tex"
    ∧ (closeFile "b.tex" c4State).activeFile ≠ some "a.tex" := by
  decide

/-- C4 (amended): `closeFile(path)` removes `path` from the open files; if
`path` was active the new active file is the **last** entry of the
remaining list (`none` when it empties), and if `path` was not active,
`activeFile` is unchanged.  (Open paths are assumed non-empty strings, so
the JS `|| null` truthiness collapse does not fire.) -/
theorem closeFile_spec (s : ProjectState) (path : String)
    (hne : "" ∉ s.openFiles) :
    (closeFile path s).openFiles = s.openFiles.filter (fun f => f != path)
    ∧ (s.activeFile = some path →
        (closeFile path s).activeFile
          = (s.openFiles.filter (fun f => f != path)).getLast?)
    ∧ (s.activeFile ≠ some path → (closeFile path s).activeFile = s.activeFile) := by
  refine ⟨rfl, ?_, ?_⟩
  · intro hact
    simp only [closeFile, if_pos hact]
    cases hlast : (s.openFiles.filter (fun f => f != path)).getLast? with
    | none => rfl
    | some l =>
        have hl : l ∈ s.openFiles.filter (fun f => f != path) :=
          mem_of_getLast?_eq hlast
        have hl2 : l ∈ s.openFiles := List.mem_of_mem_filter hl
        have : l ≠ "" := fun h => hne (h ▸ hl2)
        simp [jsOrNull, this]
  · intro hact
    simp [closeFile, if_neg hact]

/-- Witness for C4 (amended): closing the active tab of the concrete
three-tab state yields the last surviving entry. -/
theorem closeFile_spec_witness :
    (closeFile "b.tex" c4State).openFiles
        = c4State.openFiles.filter (fun f => f != "b.tex")
    ∧ (closeFile "b.tex" c4State).activeFile
        = (c4State.openFiles.filter (fun f => f != "b.tex")).getLast? :=
  ⟨(closeFile_spec c4State "b.tex" (by decide)).1,
   (closeFile_spec c4State "b.tex" (by decide)).2.1 rfl⟩

/-! ### C5: setActiveFile and the membership invariant -/

/-- A single open tab `a.tex`, active. -/
def c5State : ProjectState :=
  { currentProject := some demoProject,
    openFiles := ["a.tex"], activeFile := some "a.tex" }

/-- Counterexample to C5: `setActiveFile` with the non-member path `x.tex`
is not a no-op — it activates `x.tex`, breaking the membership
invariant. -/
theorem setActiveFile_nonmember_counterexample :
    (setActiveFile (some "x.tex") c5State).activeFile = some "x.tex"
    ∧ (setActiveFile (some "x.tex") c5State).openFiles.contains "x.tex" = false
    ∧ (setActiveFile (some "x.tex") c5State).activeFile ≠ c5State.activeFile := by
  decide

/-- C5 (amended): the invariant "the active file is a member of the open
files" is preserved by `openFile`, `closeFile` and `setFiles`, but
`setActiveFile` writes its argument unconditionally (no membership check),
so a call with a non-member path breaks the invariant. -/
theorem session_ops_invariant (s : ProjectState) (p : String)
    (files : List FileEntry) (hinv : activeMem s) :
    activeMem (openFile p s)
    ∧ activeMem (closeFile p s)
    ∧ activeMem (setFiles files s)
    ∧ ∀ q, (setActiveFile (some q) s).activeFile = some q := by
  refine ⟨?_, ?_, ?_, fun q => rfl⟩
  · intro a ha
    simp only [openFile] at ha ⊢
    cases ha
    split
    case isTrue hc => exact List.elem_iff.mp hc
    case isFalse hc => exact List.mem_append_right _ (List.mem_singleton.mpr rfl)
  · intro a ha
    simp only [closeFile] at ha ⊢
    split at ha
    case isTrue hact =>
      cases hlast : (s.openFiles.filter (fun f => f != p)).getLast? with
      | none => rw [hlast] at ha; cases ha
      | some l =>
          rw [hlast] at ha
          simp only [jsOrNull] at ha
          split at ha
          case isTrue => cases ha
          case isFalse =>
            cases ha
            exact mem_of_getLast?_eq hlast
    case isFalse hact =>
      have hmem : a ∈ s.openFiles := hinv a ha
      have hne : a ≠ p := fun h => hact (h ▸ ha)
      exact List.mem_filter.mpr ⟨hmem, by simp [hne]⟩
  · intro a ha
    cases hp : s.currentProject with
    | none =>
        have hred : setFiles files s = { s with currentProject := none } := by
          simp [setFiles, hp]
        rw [hred] at ha ⊢
        exact hinv a ha
    | some proj =>
        have hred : setFiles files s =
            { currentProject := some { proj with files := files },
              openFiles :=
                s.openFiles.filter (fun q => (files.map FileEntry.path).contains q),
              activeFile :=
                match s.activeFile with
                | some b =>
                    if b != "" && (files.map FileEntry.path).contains b then some b
                    else none
                | none => none } := by
          simp [setFiles, hp]
        rw [hred] at ha ⊢
        simp only at ha ⊢
        cases hact : s.activeFile with
        | none => rw [hact] at ha; cases ha
        | some b =>
            rw [hact] at ha
            simp only at ha
            split at ha
            case isTrue hcond =>
              cases ha
              have hb : a ∈ s.openFiles := hinv a hact
              refine List.mem_filter.mpr ⟨hb, ?_⟩
              simp only [Bool.and_eq_true] at hcond
              exact hcond.2
            case isFalse => cases ha

/-- Witness for C5 (amended) at the concrete one-tab state. -/
theorem session_ops_invariant_witness :
    activeMem (openFile "b.tex" c5State)
    ∧ activeMem (closeFile "b.tex" c5State)
    ∧ activeMem (setFiles c3Files c5State)
    ∧ ∀ q, (setActiveFile (some q) c5State).activeFile = some q :=
  session_ops_invariant c5State "b.tex" c3Files
    (by
      intro a ha
      injection ha with h
      rw [← h]
      decide)

/-! ## Keyboard shortcuts (useKeyboardShortcuts) -/

/-- A shortcut binding (`ShortcutConfig`): key name, the four modifier
flags (absent flags default to false), and a handler — embedded as a
numeric identity, since only which handler fires is observable. -/
structure ShortcutConfig where
  key : String
  ctrl : Bool := false
  shift : Bool := false
  alt : Bool := false
  meta : Bool := false
  handlerId : Nat
  description : String := ""
deriving DecidableEq, Repr

/-- The modifier-relevant part of a DOM `KeyboardEvent`. -/
structure KeyEvent where
  key : String
  ctrlKey : Bool
  shiftKey : Bool
  altKey : Bool
  metaKey : Bool
deriving DecidableEq, Repr

/-- `String.prototype.toLowerCase()`, embedded per character. -/
def jsToLowerCase (s : String) : String := String.mk (s.data.map Char.toLower)

/-- The match test inside `handleKeyDown`: lower-cased key equality,
`ctrlMatch` (a ctrl binding accepts ctrl *or* meta; a non-ctrl binding
requires neither), `shiftMatch` and `altMatch`.  The binding's `meta`
field never appears in the test. -/
def matchesShortcut (shortcut : ShortcutConfig) (e : KeyEvent) : Bool :=
  let ctrlMatch :=
    if shortcut.ctrl then e.ctrlKey || e.metaKey else !e.ctrlKey && !e.metaKey
  let shiftMatch := if shortcut.shift then e.shiftKey else !e.shiftKey
  let altMatch := if shortcut.alt then e.altKey else !e.altKey
  (jsToLowerCase e.key == jsToLowerCase shortcut.key)
    && ctrlMatch && shiftMatch && altMatch

lemma matchesShortcut_eq (b : ShortcutConfig) (e : KeyEvent) :
    matchesShortcut b e =
      ((jsToLowerCase e.key == jsToLowerCase b.key)
        && (if b.ctrl then e.ctrlKey || e.metaKey else !e.ctrlKey && !e.metaKey)
        && (if b.shift then e.shiftKey else !e.shiftKey)
        && (if b.alt then e.altKey else !e.altKey)) := rfl

/-- The dispatch loop of `handleKeyDown` over `[...shortcuts,
...localShortcuts]`: returns the bindings evaluated (in order) and the
binding whose handler fired; the `break` stops evaluation at the first
match. -/
def dispatchTrace (allShortcuts : List ShortcutConfig) (e : KeyEvent) :
    List ShortcutConfig × Option ShortcutConfig :=
  match allShortcuts with
  | [] => ([], none)
  | s :: rest =>
      if matchesShortcut s e then ([s], some s)
      else
        let r := dispatchTrace rest e
        (s :: r.1, r.2)

/-- `handleKeyDown`: global bindings first, then call-scoped ones; the
fired binding, if any. -/
def handleKeyDown (globalShortcuts localShortcuts : List ShortcutConfig)
    (e : KeyEvent) : Option ShortcutConfig :=
  (dispatchTrace (globalShortcuts ++ localShortcuts) e).2

/-- `registerShortcut(config)`: pushes the binding at the end of the
registry. -/
def registerShortcut (shortcuts : List ShortcutConfig)
    (config : ShortcutConfig) : List ShortcutConfig :=
  shortcuts ++ [config]

/-- The unregister closure returned by `registerShortcut`:
`indexOf` + `splice` removes the first matching entry (no-op when
absent). -/
def unregisterShortcut (shortcuts : List ShortcutConfig)
    (config : ShortcutConfig) : List ShortcutConfig :=
  match shortcuts with
  | [] => []
  | s :: rest => if s = config then rest else s :: unregisterShortcut rest config

lemma matchesShortcut_congr (b1 b2 : ShortcutConfig) (e : KeyEvent)
    (hk : b1.key = b2.key) (hc : b1.ctrl = b2.ctrl) (hs : b1.shift = b2.shift)
    (ha : b1.alt = b2.alt) : matchesShortcut b1 e = matchesShortcut b2 e := by
  rw [matchesShortcut_eq, matchesShortcut_eq, hk, hc, hs, ha]

lemma dispatchTrace_fired (l : List ShortcutConfig) (e : KeyEvent) :
    (dispatchTrace l e).2 = l.find? (fun s => matchesShortcut s e) := by
  induction l with
  | nil => rfl
  | cons s rest ih =>
      simp only [dispatchTrace, List.find?]
      cases hm : matchesShortcut s e with
      | true => simp [hm]
      | false => simp [hm, ih]

lemma dispatchTrace_evaluated (l : List ShortcutConfig) (e : KeyEvent) :
    (dispatchTrace l e).1
      = l.takeWhile (fun s => !matchesShortcut s e)
        ++ ((dispatchTrace l e).2).toList := by
  induction l with
  | nil => rfl
  | cons s rest ih =>
      simp only [dispatchTrace, List.takeWhile]
      cases hm : matchesShortcut s e with
      | true => simp [hm]
      | false => simp [hm, ih]

/-! ### C7: modifier matching -/

/-- A `Ctrl+S` binding (meta not declared). -/
def c7Binding : ShortcutConfig := { key := "s", ctrl := true, handlerId := 1 }

/-- A key event with only the meta modifier held. -/
def c7Event : KeyEvent :=
  { key := "s", ctrlKey := false, shiftKey := false, altKey := false,
    metaKey := true }

/-- Counterexample to C7: the `Ctrl+S` binding fires on a meta-only key
event — a modifier the binding does not declare is held (and its declared
ctrl is not), so matching is not exact modifier-set equality. -/
theorem matches_meta_counterexample :
    matchesShortcut c7Binding c7Event = true
    ∧ c7Binding.meta = false
    ∧ c7Event.metaKey = true
    ∧ c7Event.ctrlKey ≠ c7Binding.ctrl := by
  decide

/-- C7 (amended): a binding fires only when shift and alt match exactly
and the combined ctrl-or-meta state of the event equals the binding's
`ctrl` flag; the binding's declared `meta` flag is ignored entirely. -/
theorem matches_modifier_semantics (b : ShortcutConfig) (e : KeyEvent) :
    (matchesShortcut b e = true →
        e.shiftKey = b.shift ∧ e.altKey = b.alt
        ∧ (e.ctrlKey || e.metaKey) = b.ctrl)
    ∧ ∀ m, matchesShortcut { b with meta := m } e = matchesShortcut b e := by
  constructor
  · intro h
    rw [matchesShortcut_eq] at h
    simp only [Bool.and_eq_true] at h
    obtain ⟨⟨⟨hk, hc⟩, hs⟩, halt⟩ := h
    refine ⟨?_, ?_, ?_⟩
    · revert hs; cases hbs : b.shift <;> cases hes : e.shiftKey <;> simp
    · revert halt; cases hba : b.alt <;> cases hea : e.altKey <;> simp
    · revert hc
      cases hbc : b.ctrl <;> cases hec : e.ctrlKey <;> cases hem : e.metaKey <;> simp
  · intro m
    rfl

/-- Witness for C7 (amended): the conclusion discharged on the meta-only
event that fires the `Ctrl+S` binding. -/
theorem matches_modifier_semantics_witness :
    c7Event.shiftKey = c7Binding.shift ∧ c7Event.altKey = c7Binding.alt
    ∧ (c7Event.ctrlKey || c7Event.metaKey) = c7Binding.ctrl :=
  (matches_modifier_semantics c7Binding c7Event).1 (by decide)

/-! ### C8: dispatch order and registration -/

/-- C8: dispatch fires exactly the first structurally-matching binding of
the globals-then-locals list (so globals win over locals and registration
order decides within each group); the loop evaluates only the bindings up
to and including the fired one; and for two bindings with identical
key+modifiers the first-registered fires, while after unregistering the
first, the second fires. -/
theorem dispatch_first_match (gs ls : List ShortcutConfig) (e : KeyEvent) :
    handleKeyDown gs ls e = (gs ++ ls).find? (fun s => matchesShortcut s e)
    ∧ (dispatchTrace (gs ++ ls) e).1
        = (gs ++ ls).takeWhile (fun s => !matchesShortcut s e)
          ++ (handleKeyDown gs ls e).toList
    ∧ ∀ b1 b2 : ShortcutConfig,
        matchesShortcut b1 e = true →
        b1.key = b2.key → b1.ctrl = b2.ctrl → b1.shift = b2.shift →
        b1.alt = b2.alt →
        handleKeyDown (registerShortcut (registerShortcut [] b1) b2) [] e
            = some b1
        ∧ handleKeyDown
            (unregisterShortcut (registerShortcut (registerShortcut [] b1) b2) b1)
            [] e
            = some b2 := by
  refine ⟨dispatchTrace_fired _ e, ?_, ?_⟩
  · rw [handleKeyDown, dispatchTrace_evaluated]
  · intro b1 b2 hm hk hc hs ha
    have hm2 : matchesShortcut b2 e = true := by
      rw [← matchesShortcut_congr b1 b2 e hk hc hs ha]
      exact hm
    constructor
    · show (dispatchTrace (([] ++ [b1] ++ [b2]) ++ []) e).2 = some b1
      simp only [List.nil_append, List.append_nil]
      rw [dispatchTrace_fired]
      simp [List.find?, hm]
    · show (dispatchTrace (unregisterShortcut (b1 :: [b2]) b1 ++ []) e).2
          = some b2
      simp only [List.append_nil]
      rw [show unregisterShortcut (b1 :: [b2]) b1 = [b2] from by
        simp [unregisterShortcut]]
      rw [dispatchTrace_fired]
      simp [List.find?, hm2]

/-- The first-registered of two identical `Ctrl+S` bindings. -/
def c8B1 : ShortcutConfig := { key := "s", ctrl := true, handlerId := 1 }

/-- The second-registered identical binding (distinct handler). -/
def c8B2 : ShortcutConfig := { key := "s", ctrl := true, handlerId := 2 }

/-- A `Ctrl+S` key event. -/
def c8Event : KeyEvent :=
  { key := "s", ctrlKey := true, shiftKey := false, altKey := false,
    metaKey := false }

/-- Witness for C8: with both identical bindings registered the first
fires; after unregistering the first, the second fires. -/
theorem dispatch_first_match_witness :
    handleKeyDown (registerShortcut (registerShortcut [] c8B1) c8B2) [] c8Event
        = some c8B1
    ∧ handleKeyDown
        (unregisterShortcut (registerShortcut (registerShortcut [] c8B1) c8B2) c8B1)
        [] c8Event
        = some c8B2 :=
  (dispatch_first_match [] [] c8Event).2.2 c8B1 c8B2 (by decide) rfl rfl rfl rfl

/-! ## Comment highlights (Editor component) -/

/-- A review comment as delivered by the comments API. -/
structure Comment where
  id : String
  project_id : String
  file_path : String
  author_id : String
  author_name : String
  content : String
  line_start : Nat
  line_end : Nat
  resolved : Bool
  created_at : String
deriving DecidableEq, Repr

/-- A CodeMirror document is embedded as its list of lines; `doc.lines`
is the list length (CodeMirror documents always have at least one
line). `lineSpan lines n` is line `n`'s `{from, to}` character-offset
pair: offsets of earlier lines plus one separator per line break. -/
def lineSpan (lines : List String) (n : Nat) : Nat × Nat :=
  let fromPos := ((lines.take (n - 1)).map String.length).sum + (n - 1)
  (fromPos, fromPos + (lines.getD (n - 1) "").length)

/-- `doc.line(n)`: the line's span for `1 ≤ n ≤ doc.lines`; out of range
it throws a `RangeError`, embedded as `Except.error`. -/
def docLine (lines : List String) (n : Nat) : Except String (Nat × Nat) :=
  if 1 ≤ n ∧ n ≤ lines.length then Except.ok (lineSpan lines n)
  else Except.error "Invalid line number"

/-- One highlight region pushed by the effect (`{from, to, id}`). -/
structure Highlight where
  fromPos : Nat
  toPos : Nat
  id : String
deriving DecidableEq, Repr

/-- The `try` block run per comment: both endpoints are first clamped by
`Math.min(line, doc.lines)`, then resolved through `doc.line`. -/
def renderComment (lines : List String) (c : Comment) :
    Except String Highlight := do
  let fromLine ← docLine lines (min c.line_start lines.length)
  let toLine ← docLine lines (min c.line_end lines.length)
  Except.ok { fromPos := fromLine.1, toPos := toLine.2, id := c.id }

/-- The highlight list the effect dispatches: resolved comments are
skipped, and a comment whose `try` block threw is skipped by the `catch`
(`// Line may not exist`). -/
def buildHighlights (comments : List Comment) (lines : List String) :
    List Highlight :=
  comments.filterMap (fun c =>
    if c.resolved then none
    else (renderComment lines c).toOption)

/-- The same loop with the exception flow explicit: an uncaught error
would surface as `Except.error`, but the per-comment catch downgrades
every throw to a skip. -/
def highlightsEffect (comments : List Comment) (lines : List String) :
    Except String (List Highlight) :=
  match comments with
  | [] => Except.ok []
  | c :: rest =>
      if c.resolved then highlightsEffect rest lines
      else
        match renderComment lines c with
        | Except.ok h => do
            let tail ← highlightsEffect rest lines
            Except.ok (h :: tail)
        | Except.error _ => highlightsEffect rest lines

/-- C6: the highlight effect never surfaces an error (it returns the
region list for every comment set and document), every produced region
comes from a non-resolved comment via the renderer, and for any
non-resolved comment with well-formed (≥ 1) endpoints the renderer
succeeds with both line numbers clamped to `doc.lines`, so out-of-bounds
ranges land on the last valid line. -/
theorem highlights_regions (comments : List Comment) (lines : List String) :
    highlightsEffect comments lines = Except.ok (buildHighlights comments lines)
    ∧ (∀ h ∈ buildHighlights comments lines, ∃ c ∈ comments,
        c.resolved = false ∧ renderComment lines c = Except.ok h)
    ∧ (∀ c ∈ comments, c.resolved = false → 1 ≤ c.line_start →
        1 ≤ c.line_end → lines ≠ [] →
        renderComment lines c = Except.ok
          { fromPos := (lineSpan lines (min c.line_start lines.length)).1,
            toPos := (lineSpan lines (min c.line_end lines.length)).2,
            id := c.id }) := by
  refine ⟨?_, ?_, ?_⟩
  · induction comments with
    | nil => rfl
    | cons c rest ih =>
        simp only [highlightsEffect, buildHighlights, List.filterMap]
        by_cases hr : c.resolved
        · simp only [if_pos hr]
          exact ih
        · simp only [if_neg hr]
          cases hrc : renderComment lines c with
          | ok h =>
              simp only [Except.toOption]
              rw [show highlightsEffect rest lines
                  = Except.ok (buildHighlights rest lines) from ih]
              rfl
          | error err =>
              simp only [Except.toOption]
              exact ih
  · intro h hm
    rw [buildHighlights, List.mem_filterMap] at hm
    obtain ⟨c, hc, hfc⟩ := hm
    refine ⟨c, hc, ?_⟩
    by_cases hr : c.resolved
    · rw [if_pos hr] at hfc
      cases hfc
    · rw [if_neg hr] at hfc
      refine ⟨Bool.eq_false_iff.mpr hr, ?_⟩
      cases hrc : renderComment lines c with
      | ok h2 =>
          rw [hrc] at hfc
          simp only [Except.toOption] at hfc
          cases hfc
          rfl
      | error err =>
          rw [hrc] at hfc
          cases hfc
  · intro c hc hr h1 h2 hne
    have hlen : 1 ≤ lines.length := by
      cases lines with
      | nil => exact absurd rfl hne
      | cons a tl => exact Nat.succ_le_succ (Nat.zero_le _)
    have hs : docLine lines (min c.line_start lines.length)
        = Except.ok (lineSpan lines (min c.line_start lines.length)) := by
      rw [docLine, if_pos]
      exact ⟨Nat.le_min.mpr ⟨h1, hlen⟩, Nat.min_le_right _ _⟩
    have ht : docLine lines (min c.line_end lines.length)
        = Except.ok (lineSpan lines (min c.line_end lines.length)) := by
      rw [docLine, if_pos]
      exact ⟨Nat.le_min.mpr ⟨h2, hlen⟩, Nat.min_le_right _ _⟩
    rw [renderComment]
    rw [hs, ht]
    rfl

/-- A non-resolved comment anchored past the end of a 3-line document. -/
def c6Comment : Comment :=
  { id := "c1", project_id := "p1", file_path := "main.tex",
    author_id := "u1", author_name := "alice", content := "typo",
    line_start := 5, line_end := 9, resolved := false, created_at := "t0" }

/-- Witness for C6: on a 3-line document, the out-of-bounds anchor
`[5, 9]` renders with both endpoints clamped to line 3. -/
theorem highlights_regions_witness :
    renderComment ["ab", "", "xyz"] c6Comment = Except.ok
      { fromPos := (lineSpan ["ab", "", "xyz"]
          (min c6Comment.line_start (List.length ["ab", "", "xyz"]))).1,
        toPos := (lineSpan ["ab", "", "xyz"]
          (min c6Comment.line_end (List.length ["ab", "", "xyz"]))).2,
        id := c6Comment.id } :=
  (highlights_regions [c6Comment] ["ab", "", "xyz"]).2.2 c6Comment
    (List.mem_singleton.mpr rfl) rfl (by decide) (by decide) (by decide)

/-! ## Persisted session restore (getStoredState) -/

/-- The shape persisted per project: `{openFiles, activeFile}`. -/
structure StoredSession where
  openFiles : List String
  activeFile : Option String
deriving DecidableEq, Repr

/-- The per-project localStorage key prefix. -/
def STORAGE_KEY : String := "openleaf-project-state"

/-- `getStoredState(projectId)` with the browser boundary explicit:
`localStorage.getItem` may throw or return `null`, and `JSON.parse` may
throw; both are `Except`-valued parameters.  The function's try/catch
converts every failure — and the falsy empty string — into the empty
record, so no error reaches the caller. -/
def getStoredState (getItem : String → Except String (Option String))
    (parse : String → Except String StoredSession) (projectId : String) :
    StoredSession :=
  let attempt : Except String (Option StoredSession) :=
    match getItem (STORAGE_KEY ++ "-" ++ projectId) with
    | Except.error e => Except.error e
    | Except.ok none => Except.ok none
    | Except.ok (some stored) =>
        if stored != "" then
          match parse stored with
          | Except.error e => Except.error e
          | Except.ok v => Except.ok (some v)
        else Except.ok none
  match attempt with
  | Except.ok (some v) => v
  | Except.ok none => { openFiles := [], activeFile := none }
  | Except.error _ => { openFiles := [], activeFile := none }

/-- C9: restoring a session yields the empty record whenever the
persisted entry is absent, the storage read throws, or the entry is
unparseable — and in every case the caller receives a plain record (the
empty one or the parsed one), never an error. -/
theorem getStoredState_fallback
    (getItem : String → Except String (Option String))
    (parse : String → Except String StoredSession) (projectId : String) :
    (getItem (STORAGE_KEY ++ "-" ++ projectId) = Except.ok none →
        getStoredState getItem parse projectId
          = { openFiles := [], activeFile := none })
    ∧ (∀ err, getItem (STORAGE_KEY ++ "-" ++ projectId) = Except.error err →
        getStoredState getItem parse projectId
          = { openFiles := [], activeFile := none })
    ∧ (∀ s err, getItem (STORAGE_KEY ++ "-" ++ projectId) = Except.ok (some s) →
        parse s = Except.error err →
        getStoredState getItem parse projectId
          = { openFiles := [], activeFile := none })
    ∧ (getStoredState getItem parse projectId
          = { openFiles := [], activeFile := none }
        ∨ ∃ s v, getItem (STORAGE_KEY ++ "-" ++ projectId) = Except.ok (some s)
            ∧ parse s = Except.ok v
            ∧ getStoredState getItem parse projectId = v) := by
  refine ⟨?_, ?_, ?_, ?_⟩
  · intro h
    simp [getStoredState, h]
  · intro err h
    simp [getStoredState, h]
  · intro s err h hp
    simp only [getStoredState, h]
    by_cases hs : s = ""
    · simp [hs]
    · simp [hp, bne_iff_ne, hs]
  · cases hg : getItem (STORAGE_KEY ++ "-" ++ projectId) with
    | error e => left; simp [getStoredState, hg]
    | ok stored =>
        cases stored with
        | none => left; simp [getStoredState, hg]
        | some s =>
            by_cases hs : s = ""
            · left; simp [getStoredState, hg, hs]
            · cases hp : parse s with
              | error e => left; simp [getStoredState, hg, hp, bne_iff_ne, hs]
              | ok v =>
                  right
                  exact ⟨s, v, rfl, hp, by simp [getStoredState, hg, hp, bne_iff_ne, hs]⟩

/-- Witness for C9: an absent entry restores to the empty record. -/
theorem getStoredState_fallback_witness :
    getStoredState (fun _ => Except.ok none) (fun _ => Except.error "bad") "p1"
      = { openFiles := [], activeFile := none } :=
  (getStoredState_fallback (fun _ => Except.ok none)
    (fun _ => Except.error "bad") "p1").1 rfl

end Openleaf
